import Mathlib

/-!
Verification of the connection core of channeld (`pkg/channeld/connection.go`)
against its natural-language specification.  Every definition below is a
shallow embedding of the corresponding Go code; machine integers are `Nat`
with explicit wrapping where it matters, external collaborators
(protobuf, snappy, the FSM package) are abstracted as parameters or
modelled from the spec where indicated.
-/

/-! ## Framing codec (flush lines 663-672, readPacket lines 460-465) -/

/-- `MaxPacketSize` from connection.go line 28. -/
def MaxPacketSize : Nat := 0xffff

/-- `PacketHeaderSize` from connection.go line 29. -/
def PacketHeaderSize : Nat := 5

/-- Header encoding, from `flush` (connection.go lines 663-672):
`tag := []byte{67, 72, 78, 76, byte(ct)}`, then `tag[3] = len & 0xff`,
`tag[2] = (len >> 8) & 0xff` only when `len > 0xff`, and
`tag[1] = (len >> 16) & 0xff` only when `len > 0xffff`. -/
def encodeHeader (n : Nat) (ct : Nat) : List Nat :=
  let b3 := n &&& 0xff
  let b2 := if n > 0xff then (n >>> 8) &&& 0xff else 78
  let b1 := if n > 0xffff then (n >>> 16) &&& 0xff else 72
  [67, b1, b2, b3, ct % 256]

/-- Packet-size decoding from `readPacket` (connection.go lines 460-465):
`packetSize := int(tag[3])`; if `tag[1] != 72` then
`packetSize |= int(tag[1])<<16 | int(tag[2])<<8`; else if `tag[2] != 78`
then `packetSize |= int(tag[2])<<8`. -/
def decodeSize (b1 b2 b3 : Nat) : Nat :=
  let s := b3
  if b1 ≠ 72 then s ||| (b1 <<< 16) ||| (b2 <<< 8)
  else if b2 ≠ 78 then s ||| (b2 <<< 8)
  else s

/-- Decoding a full 5-byte header: the declared payload size from bytes 1..3
and the compression type from byte 4 (`ct := tag[4]`, line 493). -/
def decodeHeader (tag : List Nat) : Nat × Nat :=
  (decodeSize (tag.getD 1 0) (tag.getD 2 0) (tag.getD 3 0), tag.getD 4 0)

/-- Modelled from the spec: membership in the `channeldpb.CompressionType`
enum ("enum {NONE=0, SNAPPY=1, …}"); the enum itself lives in
`pkg/channeldpb`, which is repository code not present under src/.  The
check embeds `_, valid := channeldpb.CompressionType_name[int32(ct)]`
(connection.go line 494). -/
def isKnownCompression (ct : Nat) : Bool :=
  ct = 0 ∨ ct = 1

set_option maxRecDepth 8000

set_option maxHeartbeats 1600000

/-- Bitwise-or of a low byte with a value shifted left by 8 is plain
addition; used to relate the codec's `|` to arithmetic. -/
theorem lor_shift8_eq_add : ∀ a < 256, ∀ b < 256,
    a ||| (b <<< 8) = a + 256 * b := by decide

/-- Claim C2 counterexample: for payload length `n = 0x4E00` (whose high
byte equals 0x4E, the 'N' sentinel) and compression type SNAPPY (= 1),
decoding the encoder's header does not give back `n`: the decoder sees
byte2 = 78 = 'N' and drops the high byte, yielding length 0. -/
theorem headerRoundTrip_cex :
    19968 ≤ 0xffff ∧ isKnownCompression 1 = true ∧
    decodeHeader (encodeHeader 19968 1) = (0, 1) ∧
    decodeHeader (encodeHeader 19968 1) ≠ (19968, 1) := by decide

/-- Claim C2 (amended): for every payload length `n ≤ 0xFFFF` whose high
byte is not 0x4E ('N') — i.e. `n ≤ 0xFF` or `n >>> 8 ≠ 78` — and every
known compression type `ct`, decoding the 5-byte header produced by the
encoder yields back exactly `(n, ct)`.  Lengths in `[0x4E00, 0x4EFF]`
collide with the 'N' sentinel and decode to `n &&& 0xFF`. -/
theorem headerRoundTrip (n ct : Nat) (hn : n ≤ 0xffff)
    (hct : isKnownCompression ct = true)
    (hmid : n ≤ 0xff ∨ n >>> 8 ≠ 78) :
    decodeHeader (encodeHeader n ct) = (n, ct) := by
  have hct' : ct = 0 ∨ ct = 1 := by
    simpa [isKnownCompression, decide_eq_true_eq] using hct
  have hctmod : ct % 256 = ct := by
    rcases hct' with h | h <;> simp [h]
  have hb1 : ¬ n > 0xffff := by omega
  have hmod : n &&& 0xff = n % 256 := Nat.and_pow_two_sub_one_eq_mod n 8
  have hdiv : n >>> 8 = n / 256 := Nat.shiftRight_eq_div_pow n 8
  have h78 : ¬ ((72 : Nat) ≠ 72) := by simp
  have key : decodeHeader (encodeHeader n ct) =
      (decodeSize (if n > 0xffff then (n >>> 16) &&& 0xff else 72)
                  (if n > 0xff then (n >>> 8) &&& 0xff else 78)
                  (n &&& 0xff), ct % 256) := rfl
  rw [key, hctmod, if_neg hb1, hmod]
  rcases Nat.lt_or_ge 0xff n with hgt | hle
  · -- n > 0xff: byte2 carries the mid byte and must differ from 'N'
    have hmid' : n / 256 ≠ 78 := by
      rcases hmid with h | h
      · omega
      · rwa [hdiv] at h
    have hq : (n >>> 8) &&& 0xff = n / 256 := by
      rw [hdiv]
      have h : n / 256 &&& 0xff = n / 256 % 256 :=
        Nat.and_pow_two_sub_one_eq_mod (n / 256) 8
      rw [h]
      exact Nat.mod_eq_of_lt (by omega)
    rw [if_pos hgt, hq]
    simp only [decodeSize, if_neg h78, if_pos hmid']
    rw [lor_shift8_eq_add (n % 256) (by omega) (n / 256) (by omega)]
    simp only [Prod.mk.injEq]
    exact ⟨by omega, trivial⟩
  · -- n ≤ 0xff: byte2 is the 'N' sentinel and the low byte is n itself
    have hngt : ¬ n > 0xff := by omega
    have h79 : ¬ ((78 : Nat) ≠ 78) := by simp
    rw [if_neg hngt]
    simp only [decodeSize, if_neg h78, if_neg h79]
    simp only [Prod.mk.injEq]
    exact ⟨Nat.mod_eq_of_lt (by omega), trivial⟩

/-- Witness for `headerRoundTrip` at `n = 300`, `ct = 1`. -/
theorem headerRoundTrip_witness :
    decodeHeader (encodeHeader 300 1) = (300, 1) :=
  headerRoundTrip 300 1 (by decide) (by decide) (Or.inr (by decide))

/-! ## Replay-session timestamp rewrite (persistReplaySession, lines 752-766) -/

/-- The rewrite loop of `persistReplaySession` (connection.go lines
762-766): for each packet, `t := packet.OffsetTime;
packet.OffsetTime -= prevPacketTime; prevPacketTime = t`.  The list holds
the `OffsetTime` fields of `replaySession.Packets` in order. -/
def rewriteOffsets (prevPacketTime : Int) : List Int → List Int
  | [] => []
  | t :: rest => (t - prevPacketTime) :: rewriteOffsets t rest

/-- The timestamp-rewrite phase of `persistReplaySession` (lines 752-766):
`prevPacketTime` is initialized to the first packet's `OffsetTime`
(line 756); an empty session returns early (lines 757-760), leaving the
list untouched. -/
def persistRewrite (ps : List Int) : List Int :=
  match ps with
  | [] => []
  | p0 :: _ => rewriteOffsets p0 ps

/-- Claim C9 counterexample: recording original timestamps 5 then 7, the
rewrite produces offsets 0 and 2 — the first packet's OffsetTime becomes
0 (the delta from itself), not its original absolute timestamp 5 as the
claim states. -/
theorem replayRewrite_cex :
    persistRewrite [5, 7] = [0, 2] ∧ persistRewrite [5, 7] ≠ [5, 2] := by
  decide

/-- Element-wise description of the rewrite loop: position 0 gets the
delta from the initial `prev`, position `i + 1` the delta from the
original value at position `i`. -/
theorem rewriteOffsets_getD (l : List Int) (prev : Int) (i : Nat)
    (h : i < l.length) :
    (rewriteOffsets prev l).getD i 0 =
      l.getD i 0 - (if i = 0 then prev else l.getD (i - 1) 0) := by
  induction l generalizing prev i with
  | nil => simp at h
  | cons t rest ih =>
    cases i with
    | zero => simp [rewriteOffsets]
    | succ j =>
      simp only [rewriteOffsets, List.getD_cons_succ]
      rw [ih t j (by simpa using h)]
      cases j with
      | zero => simp
      | succ k => simp

/-- The rewrite loop preserves the number of packets. -/
theorem rewriteOffsets_length (l : List Int) (prev : Int) :
    (rewriteOffsets prev l).length = l.length := by
  induction l generalizing prev with
  | nil => rfl
  | cons t rest ih => simp [rewriteOffsets, ih]

/-- Claim C9 (amended): when a recorded replay session is persisted at
close, the timestamp rewrite sets the first packet's OffsetTime to 0
(its delta from itself, not its original absolute timestamp) and, for
every later packet, sets OffsetTime to the delta between that packet's
original timestamp and the previous packet's original timestamp. -/
theorem replayRewrite (p0 : Int) (rest : List Int) :
    (persistRewrite (p0 :: rest)).length = (p0 :: rest).length ∧
    (persistRewrite (p0 :: rest)).getD 0 0 = 0 ∧
    ∀ i : Nat, i + 1 < (p0 :: rest).length →
      (persistRewrite (p0 :: rest)).getD (i + 1) 0 =
        (p0 :: rest).getD (i + 1) 0 - (p0 :: rest).getD i 0 := by
  refine ⟨rewriteOffsets_length _ _, ?_, ?_⟩
  · simp [persistRewrite, rewriteOffsets]
  · intro i h
    have h' : i + 1 < (p0 :: rest).length := h
    rw [persistRewrite, rewriteOffsets_getD (p0 :: rest) p0 (i + 1) h']
    simp

/-- Witness for `replayRewrite`: with original timestamps 5, 7 the second
offset becomes 2. -/
theorem replayRewrite_witness :
    (persistRewrite (5 :: [7])).getD (0 + 1) 0 =
      ((5 : Int) :: [7]).getD (0 + 1) 0 - ((5 : Int) :: [7]).getD 0 0 :=
  (replayRewrite 5 [7]).2.2 0 (by decide)

/-! ## Outbound flush drain loop (flush, lines 613-649) -/

/-- The drain loop of `flush` (connection.go lines 622-649), parameterized
by `sizeMsg`, modelling the external `proto.Size(mc.Msg)`, and
`sizePacket`, modelling `proto.Size(&p)` on the messages gathered so far
(`size = proto.Size(&p)`, line 641).  `q` is the current send queue in
dequeue order, `size` the running `size` variable, `acc` the `p.Messages`
built so far; the result is the drained packet contents and what remains
in the queue.  Faithful to the source, `mc := <-c.sendQueue` happens
BEFORE the size check, and the `break` on line 627 neither serializes
`mc` nor puts it back: the triggering context vanishes.
`proto.Marshal(mc.Msg)` is modelled as always succeeding. -/
def flushDrain {α : Type} (sizeMsg : α → Nat) (sizePacket : List α → Nat) :
    List α → Nat → List α → List α × List α
  | [], _, acc => (acc, [])
  | mc :: rest, size, acc =>
    if size + sizeMsg mc ≥ 0xfffff0 then (acc, rest)
    else
      flushDrain sizeMsg sizePacket rest (sizePacket (acc ++ [mc]))
        (acc ++ [mc])

/-- A message-size function for the C4 counterexample: one message whose
projected serialized size alone reaches the cap. -/
def cexSizeMsg : Nat → Nat := fun _ => 0xfffff0

/-- A packet-size function for the C4 counterexample. -/
def cexSizePacket : List Nat → Nat := fun l => l.length

/-- Claim C4 counterexample: with a single queued context `7` whose
projected size reaches the cap, the drain loop dequeues it, breaks, and
the context is in neither the assembled packet nor the remaining queue —
it is lost at the size cutoff. -/
theorem flushDrain_cex :
    flushDrain cexSizeMsg cexSizePacket [7] 0 [] = ([], []) ∧
    ¬ (7 ∈ (flushDrain cexSizeMsg cexSizePacket [7] 0 []).1 ∨
       7 ∈ (flushDrain cexSizeMsg cexSizePacket [7] 0 []).2) := by
  decide

/-- Claim C4 (amended): each flush drains queued message contexts into one
packet in dequeue order, stopping as soon as the running size plus the
next context's projected serialized size would reach or exceed 0xFFFFF0;
every context that was in the queue at flush time is either serialized
into the sent packet or remains in the send queue — except the single
context that triggered the cutoff, which is dequeued before the size
check and discarded.  Formally: the packet extends `acc` by some `taken`,
and the queue splits as `taken ++ remaining`, possibly with one dropped
context in between. -/
theorem flushDrain_conservation {α : Type} (sizeMsg : α → Nat)
    (sizePacket : List α → Nat) :
    ∀ (q : List α) (size : Nat) (acc : List α),
      ∃ taken,
        (flushDrain sizeMsg sizePacket q size acc).1 = acc ++ taken ∧
        (q = taken ++ (flushDrain sizeMsg sizePacket q size acc).2 ∨
         ∃ mc, q = taken ++ mc ::
            (flushDrain sizeMsg sizePacket q size acc).2) := by
  intro q
  induction q with
  | nil =>
    intro size acc
    exact ⟨[], by simp [flushDrain], Or.inl (by simp [flushDrain])⟩
  | cons mc rest ih =>
    intro size acc
    by_cases h : size + sizeMsg mc ≥ 0xfffff0
    · refine ⟨[], by simp [flushDrain, h], Or.inr ⟨mc, ?_⟩⟩
      simp [flushDrain, h]
    · obtain ⟨taken, h1, h2⟩ :=
        ih (sizePacket (acc ++ [mc])) (acc ++ [mc])
      have hunfold : flushDrain sizeMsg sizePacket (mc :: rest) size acc =
          flushDrain sizeMsg sizePacket rest (sizePacket (acc ++ [mc]))
            (acc ++ [mc]) := by
        simp [flushDrain, h]
      refine ⟨mc :: taken, ?_, ?_⟩
      · rw [hunfold, h1]
        simp
      · rcases h2 with h2 | ⟨mc', h2⟩
        · exact Or.inl (by rw [hunfold, List.cons_append, ← h2])
        · exact Or.inr ⟨mc', by rw [hunfold, List.cons_append, ← h2]⟩

/-! ## Connection lifecycle: Close, Send, GetConnection
(connection.go lines 118-128, 300-329, 604-610, 752-791) -/

/-- The connection object (`Connection`, connection.go lines 52-73),
restricted to the state the lifecycle operations touch.  `state` holds
the `ConnectionState` (0 = UNAUTHENTICATED, 1 = AUTHENTICATED,
2 = CLOSING).  A close handler is a pair of an opaque identifier and a
flag: `true` models a handler that returns normally, `false` one whose
invocation panics.  `recordingEnabled` is `isPacketRecordingEnabled()`
(connection type CLIENT and the global record flag, line 533-535);
`replayOffsets` holds the `OffsetTime` fields of
`replaySession.Packets`. -/
structure Conn where
  id : Nat
  state : Nat
  sendQueue : List Nat
  queueOpen : Bool
  socketOpen : Bool
  closeHandlers : List (Nat × Bool)
  recordingEnabled : Bool
  replayOffsets : List Int
deriving DecidableEq, Repr

/-- The process-wide registries (connection.go lines 75, 287-289):
`allConnections` as an association list and the id set of
`unauthenticatedConnections`. -/
structure Registry where
  allConnections : List (Nat × Conn)
  unauthenticatedConnections : List Nat
deriving DecidableEq, Repr

/-- Association-list lookup, modelling `allConnections.Load(id)`. -/
def lookupConn : List (Nat × Conn) → Nat → Option Conn
  | [], _ => none
  | (i, c) :: rest, id => if i = id then some c else lookupConn rest id

/-- Map deletion, modelling `allConnections.Delete(id)`. -/
def removeConn (l : List (Nat × Conn)) (id : Nat) : List (Nat × Conn) :=
  l.filter (fun e => e.1 ≠ id)

/-- `IsClosing` (connection.go lines 327-329):
`c.state > ConnectionState_AUTHENTICATED`. -/
def Conn.IsClosing (c : Conn) : Bool :=
  c.state > 1

/-- `GetConnection` (connection.go lines 118-128): `nil` both for unknown
ids and for connections observed to be closing. -/
def GetConnection (r : Registry) (id : Nat) : Option Conn :=
  match lookupConn r.allConnections id with
  | some c => if c.IsClosing then none else some c
  | none => none

/-- `Send` (connection.go lines 604-610): a no-op when closing, otherwise
the default `queuedMessageSender` enqueues the context on `sendQueue`
(line 48-50).  The queue's blocking at capacity is a concurrency
behavior outside this embedding. -/
def Conn.Send (c : Conn) (ctx : Nat) : Conn :=
  if c.IsClosing then c
  else { c with sendQueue := c.sendQueue ++ [ctx] }

/-- Running the close-handler loop (connection.go lines 313-315).  The
handlers run in insertion order; a panicking handler unwinds to the
deferred `recover()` at the top of `Close` (lines 301-303), so the loop
stops there.  Returns the ids of the handlers that were invoked, in
order, and whether all of them returned normally. -/
def runCloseHandlers : List (Nat × Bool) → List Nat × Bool
  | [] => ([], true)
  | (i, ok) :: rest =>
    if ok then
      let r := runCloseHandlers rest
      (i :: r.1, r.2)
    else ([i], false)

/-- Whether `persistReplaySession` reaches the file write (lines 752-791):
an empty session logs an error and returns early (lines 757-760).
Marshalling and the filesystem write are modelled as succeeding. -/
def persistWritesFile (ps : List Int) : Bool :=
  ¬ ps.isEmpty

/-- The observable outcome of one `Close` call: the connection afterwards,
the registries afterwards, the close handlers invoked (in order), whether
a replay-session file was written, and whether the teardown steps (state
to CLOSING, socket close, send-queue close, deregistration) ran. -/
structure CloseResult where
  conn : Conn
  reg : Registry
  handlersInvoked : List Nat
  persistedFile : Bool
  teardownDone : Bool
deriving DecidableEq, Repr

/-- `Close` (connection.go lines 300-325).  Guard: a connection already
closing returns at once.  Then: persist the replay session when recording
is enabled (including the C9 timestamp rewrite), invoke the close
handlers in insertion order, set state to CLOSING, close the socket and
the send queue, and delete the connection from both registries.  The
whole body runs under a single `defer recover()` (lines 301-303), so a
panic in a close handler makes `Close` return right there: the remaining
handlers and every teardown step are skipped. -/
def Close (c : Conn) (r : Registry) : CloseResult :=
  if c.IsClosing then ⟨c, r, [], false, false⟩
  else
    let c1 :=
      if c.recordingEnabled then
        { c with replayOffsets := persistRewrite c.replayOffsets }
      else c
    let persisted :=
      if c.recordingEnabled then persistWritesFile c.replayOffsets
      else false
    let run := runCloseHandlers c.closeHandlers
    if run.2 then
      let c2 := { c1 with
        state := 2
        socketOpen := false
        queueOpen := false }
      let r2 : Registry := {
        allConnections := removeConn r.allConnections c.id
        unauthenticatedConnections :=
          r.unauthenticatedConnections.filter (fun i => i ≠ c.id) }
      ⟨c2, r2, run.1, persisted, true⟩
    else ⟨c1, r, run.1, persisted, false⟩

/-- When every registered handler returns normally, the close-handler
loop invokes all of them in insertion order. -/
theorem runCloseHandlers_all_ok (hs : List (Nat × Bool))
    (hok : ∀ h ∈ hs, h.2 = true) :
    runCloseHandlers hs = (hs.map Prod.fst, true) := by
  induction hs with
  | nil => rfl
  | cons h rest ih =>
    obtain ⟨i, ok⟩ := h
    have h1 : ok = true := hok (i, ok) (List.mem_cons_self _ _)
    have h2 : runCloseHandlers rest = (rest.map Prod.fst, true) :=
      ih (fun x hx => hok x (List.mem_cons_of_mem _ hx))
    simp [runCloseHandlers, h1, h2]

/-- A handler that panics stops the loop: the handlers before it run in
order, it runs, and nothing after it runs. -/
theorem runCloseHandlers_panic (pre post : List (Nat × Bool)) (i : Nat)
    (hok : ∀ x ∈ pre, x.2 = true) :
    runCloseHandlers (pre ++ (i, false) :: post) =
      (pre.map Prod.fst ++ [i], false) := by
  induction pre with
  | nil => simp [runCloseHandlers]
  | cons h rest ih =>
    obtain ⟨j, ok⟩ := h
    have h1 : ok = true := hok (j, ok) (List.mem_cons_self _ _)
    have h2 := ih (fun x hx => hok x (List.mem_cons_of_mem _ hx))
    simp [runCloseHandlers, h1, h2]

/-- Deleting an id from the registry map makes lookups of that id fail. -/
theorem lookupConn_removeConn (l : List (Nat × Conn)) (id : Nat) :
    lookupConn (removeConn l id) id = none := by
  induction l with
  | nil => rfl
  | cons e rest ih =>
    obtain ⟨i, c⟩ := e
    by_cases h : i = id
    · simpa [removeConn, h] using ih
    · simpa [removeConn, lookupConn, h] using ih

/-- Claim C3: for every connection whose registry entry is the connection
itself and whose close handlers return normally, after `Close` has
returned every subsequent `Send` is a no-op (nothing is enqueued),
`GetConnection` on its id returns `none`, and a second `Close` returns
at the guard without repeating any step: no handler runs again, no file
is written again, no teardown step is repeated. -/
theorem close_send_noop_unregistered (c : Conn) (r : Registry) (ctx : Nat)
    (hreg : lookupConn r.allConnections c.id = some c)
    (hok : ∀ h ∈ c.closeHandlers, h.2 = true) :
    (Close c r).conn.Send ctx = (Close c r).conn ∧
    GetConnection (Close c r).reg c.id = none ∧
    Close (Close c r).conn (Close c r).reg =
      ⟨(Close c r).conn, (Close c r).reg, [], false, false⟩ := by
  have hrun := runCloseHandlers_all_ok c.closeHandlers hok
  by_cases hcl : c.IsClosing = true
  · have h1 : Close c r = ⟨c, r, [], false, false⟩ := by
      simp [Close, hcl]
    rw [h1]
    refine ⟨?_, ?_, ?_⟩
    · simp [Conn.Send, hcl]
    · simp [GetConnection, hreg, hcl]
    · exact h1
  · have hlt : ¬ 1 < c.state := by
      simpa [Conn.IsClosing] using hcl
    cases hrec : c.recordingEnabled <;>
      refine ⟨?_, ?_, ?_⟩ <;>
        simp [Close, hlt, hrec, hrun, Conn.Send, Conn.IsClosing,
          GetConnection, lookupConn_removeConn]

/-- The concrete connection used in lifecycle witnesses: id 1,
unauthenticated, one well-behaved close handler, no recording. -/
def wConn : Conn :=
  { id := 1
    state := 0
    sendQueue := []
    queueOpen := true
    socketOpen := true
    closeHandlers := [(3, true)]
    recordingEnabled := false
    replayOffsets := [] }

/-- The registry holding exactly `wConn`. -/
def wReg : Registry :=
  { allConnections := [(1, wConn)]
    unauthenticatedConnections := [1] }

/-- Witness for `close_send_noop_unregistered` on `wConn`. -/
theorem close_send_noop_unregistered_witness :
    (Close wConn wReg).conn.Send 42 = (Close wConn wReg).conn ∧
    GetConnection (Close wConn wReg).reg wConn.id = none ∧
    Close (Close wConn wReg).conn (Close wConn wReg).reg =
      ⟨(Close wConn wReg).conn, (Close wConn wReg).reg, [], false, false⟩ :=
  close_send_noop_unregistered wConn wReg 42 (by decide) (by decide)

/-- The concrete connection for the C5 counterexample: the first close
handler panics, a second well-behaved handler follows. -/
def cConn5 : Conn :=
  { id := 2
    state := 0
    sendQueue := []
    queueOpen := true
    socketOpen := true
    closeHandlers := [(0, false), (1, true)]
    recordingEnabled := false
    replayOffsets := [] }

/-- The registry holding exactly `cConn5`. -/
def cReg5 : Registry :=
  { allConnections := [(2, cConn5)]
    unauthenticatedConnections := [] }

/-- Claim C5 counterexample: with close handlers [panicking, normal],
`Close` invokes only the first handler — the panic unwinds to the single
deferred recover wrapping all of `Close` — so the second handler never
runs, the state is not set to CLOSING, and the connection stays
registered: one handler's failure does prevent the remaining handlers
and the subsequent teardown. -/
theorem closeHandlers_cex :
    (Close cConn5 cReg5).handlersInvoked = [0] ∧
    (Close cConn5 cReg5).handlersInvoked ≠ [0, 1] ∧
    (Close cConn5 cReg5).teardownDone = false ∧
    (Close cConn5 cReg5).conn.state ≠ 2 ∧
    (Close cConn5 cReg5).reg = cReg5 := by decide

/-- Claim C5 (amended): on a connection that is not yet closing, `Close`
invokes the registered close handlers in insertion order; when all of
them return normally, all are invoked and the teardown steps follow.
When a handler panics, the handlers before it have run in order, it is
the last handler invoked, and — because the panic unwinds to the single
`defer recover()` wrapping Close — the remaining handlers do NOT run and
every teardown step is skipped: the state stays below CLOSING and the
registries are untouched. -/
theorem closeHandlers_behavior (c : Conn) (r : Registry)
    (hst : c.state ≤ 1) :
    ((∀ h ∈ c.closeHandlers, h.2 = true) →
       (Close c r).handlersInvoked = c.closeHandlers.map Prod.fst ∧
       (Close c r).teardownDone = true) ∧
    (∀ pre i post, c.closeHandlers = pre ++ (i, false) :: post →
       (∀ x ∈ pre, x.2 = true) →
       (Close c r).handlersInvoked = pre.map Prod.fst ++ [i] ∧
       (Close c r).teardownDone = false ∧
       (Close c r).conn.state = c.state ∧
       (Close c r).reg = r) := by
  have hlt : ¬ 1 < c.state := by omega
  constructor
  · intro hok
    have hrun := runCloseHandlers_all_ok c.closeHandlers hok
    constructor <;> simp [Close, Conn.IsClosing, hlt, hrun]
  · intro pre i post hch hok
    have hrun := runCloseHandlers_panic pre post i hok
    rw [← hch] at hrun
    cases hrec : c.recordingEnabled <;>
      refine ⟨?_, ?_, ?_, ?_⟩ <;>
        simp [Close, Conn.IsClosing, hlt, hrun, hrec]

/-- The concrete connection for the C5 witness: a normal handler followed
by a panicking one. -/
def pConn : Conn :=
  { id := 4
    state := 1
    sendQueue := []
    queueOpen := true
    socketOpen := true
    closeHandlers := [(3, true), (4, false)]
    recordingEnabled := false
    replayOffsets := [] }

/-- The registry holding exactly `pConn`. -/
def pReg : Registry :=
  { allConnections := [(4, pConn)]
    unauthenticatedConnections := [] }

/-- Witness for `closeHandlers_behavior` on `pConn`: handler 3 runs, the
panicking handler 4 is last, teardown is skipped. -/
theorem closeHandlers_behavior_witness :
    (Close pConn pReg).handlersInvoked =
      ([((3 : Nat), true)].map Prod.fst) ++ [4] ∧
    (Close pConn pReg).teardownDone = false ∧
    (Close pConn pReg).conn.state = pConn.state ∧
    (Close pConn pReg).reg = pReg :=
  (closeHandlers_behavior pConn pReg (by decide)).2
    [(3, true)] 4 [] (by decide) (by decide)

/-- Claim C10: when packet recording is enabled but the replay session
holds zero packets at `Close`, no replay-session file is written
(`persistReplaySession` returns early after logging the error), and
`Close` nevertheless completes the rest of the teardown: every close
handler runs, the state becomes CLOSING, the socket and send queue are
closed, and the connection is deregistered. -/
theorem close_emptyReplay_noFile (c : Conn) (r : Registry)
    (hrec : c.recordingEnabled = true) (hempty : c.replayOffsets = [])
    (hst : c.state ≤ 1) (hok : ∀ h ∈ c.closeHandlers, h.2 = true) :
    (Close c r).persistedFile = false ∧
    (Close c r).handlersInvoked = c.closeHandlers.map Prod.fst ∧
    (Close c r).teardownDone = true ∧
    (Close c r).conn.state = 2 ∧
    (Close c r).conn.socketOpen = false ∧
    (Close c r).conn.queueOpen = false ∧
    lookupConn (Close c r).reg.allConnections c.id = none := by
  have hlt : ¬ 1 < c.state := by omega
  have hrun := runCloseHandlers_all_ok c.closeHandlers hok
  refine ⟨?_, ?_, ?_, ?_, ?_, ?_, ?_⟩ <;>
    simp [Close, Conn.IsClosing, hlt, hrec, hrun, hempty, persistWritesFile,
      lookupConn_removeConn]

/-- The concrete connection for the C10 witness: recording enabled, empty
replay session. -/
def rConn : Conn :=
  { id := 5
    state := 0
    sendQueue := []
    queueOpen := true
    socketOpen := true
    closeHandlers := [(7, true)]
    recordingEnabled := true
    replayOffsets := [] }

/-- The registry holding exactly `rConn`. -/
def rReg : Registry :=
  { allConnections := [(5, rConn)]
    unauthenticatedConnections := [5] }

/-- Witness for `close_emptyReplay_noFile` on `rConn`. -/
theorem close_emptyReplay_noFile_witness :
    (Close rConn rReg).persistedFile = false ∧
    (Close rConn rReg).handlersInvoked = rConn.closeHandlers.map Prod.fst ∧
    (Close rConn rReg).teardownDone = true ∧
    (Close rConn rReg).conn.state = 2 ∧
    (Close rConn rReg).conn.socketOpen = false ∧
    (Close rConn rReg).conn.queueOpen = false ∧
    lookupConn (Close rConn rReg).reg.allConnections rConn.id = none :=
  close_emptyReplay_noFile rConn rReg (by decide) (by decide) (by decide)
    (by decide)

/-! ## Inbound message gating (receiveMessage, lines 537-602) -/

/-- Modelled from the spec: "Any rejected message (`IsAllowed` false)
increments a counter, emits a disallowed event broadcast, and is dropped".
The `fsmDisallowedCounter` field is declared (connection.go line 66) and
initialized to 0 (line 249) but never incremented inside src/; the
listener attached to the `Event_FsmDisallowed` broadcast that increments
it is repository code not present under src/. -/
def onFsmDisallowedBroadcast (counter : Nat) : Nat :=
  counter + 1

/-- Marker for the `handleClientToServerUserMessage` handler (repository
code outside src/), referenced by `receiveMessage` line 569. -/
def handleClientToServerUserMessageId : Nat := 1000001

/-- Marker for the `HandleServerToClientUserMessage` handler (repository
code outside src/), referenced by `receiveMessage` line 578. -/
def handleServerToClientUserMessageId : Nat := 1000002

/-- The observable outcome of one `receiveMessage` call: the
`fsmDisallowedCounter` afterwards, whether `Event_FsmDisallowed` was
broadcast, which handler (if any) was handed to the channel queue
together with the message (`channel.PutMessage`, line 593), and whether
`fsm.OnReceived` ran (line 591). -/
structure ReceiveMsgResult where
  counter : Nat
  disallowedBroadcast : Bool
  handlerInvoked : Option Nat
  putOnChannelQueue : Bool
  fsmOnReceivedCalled : Bool
deriving DecidableEq, Repr

/-- `receiveMessage` (connection.go lines 537-602), with the external
collaborators abstracted: `channelExists` is whether
`GetChannel(mp.ChannelId)` found the destination channel, `entry` the
`MessageMap` entry's handler for `mp.MsgType` (`none` when absent),
`uss` the numeric `channeldpb.MessageType_USER_SPACE_START` boundary,
`connTypeClient` whether the connection type is CLIENT, `unmarshalOk`
whether `proto.Unmarshal` of the message body succeeds, and `isAllowed`
the result of `c.fsm.IsAllowed(mp.MsgType)`.  The control flow follows
the source exactly: missing channel → drop; missing entry below
user-space → drop; FSM disallows → broadcast + counter increment
(spec-modelled listener) + drop; otherwise decode and hand the message
and its handler to the channel queue after `fsm.OnReceived`. -/
def receiveMessage (channelExists : Bool) (entry : Option Nat) (uss : Nat)
    (connTypeClient : Bool) (unmarshalOk : Bool) (isAllowed : Bool)
    (msgType : Nat) (counter : Nat) : ReceiveMsgResult :=
  if ¬ channelExists then
    ⟨counter, false, none, false, false⟩
  else if entry = none ∧ msgType < uss then
    ⟨counter, false, none, false, false⟩
  else if ¬ isAllowed then
    ⟨onFsmDisallowedBroadcast counter, true, none, false, false⟩
  else
    match entry with
    | none =>
      if connTypeClient then
        ⟨counter, false, some handleClientToServerUserMessageId, true, true⟩
      else if unmarshalOk then
        ⟨counter, false, some handleServerToClientUserMessageId, true, true⟩
      else ⟨counter, false, none, false, false⟩
    | some h =>
      if unmarshalOk then ⟨counter, false, some h, true, true⟩
      else ⟨counter, false, none, false, false⟩

/-- Claim C6: for every inbound MessagePack that reaches the FSM check (the
destination channel exists and the type is either mapped or user-space)
and whose type the FSM disallows, `receiveMessage` broadcasts the
disallowed event, increments the disallowed counter (via the
spec-modelled broadcast listener), and drops the message: no handler is
invoked, nothing is put on any channel queue, and the FSM does not
observe the message. -/
theorem receiveMessage_disallowed (entry : Option Nat)
    (uss msgType counter : Nat) (connTypeClient unmarshalOk : Bool)
    (hentry : entry ≠ none ∨ uss ≤ msgType) :
    receiveMessage true entry uss connTypeClient unmarshalOk false msgType
        counter =
      ⟨counter + 1, true, none, false, false⟩ := by
  have hcond : ¬ (entry = none ∧ msgType < uss) := by
    rcases hentry with h | h
    · exact fun hc => h hc.1
    · exact fun hc => absurd hc.2 (by omega)
  simp [receiveMessage, hcond, onFsmDisallowedBroadcast]

/-- Witness for `receiveMessage_disallowed`: a mapped message type 7 with
handler 5, disallowed by the FSM, on a client connection with counter 3. -/
theorem receiveMessage_disallowed_witness :
    receiveMessage true (some 5) 100 true true false 7 3 =
      ⟨3 + 1, true, none, false, false⟩ :=
  receiveMessage_disallowed (some 5) 100 7 3 true true (Or.inl (by decide))

/-! ## Sticky compression type (readPacket lines 493-510, flush 656-672) -/

/-- The sticky-compression update on packet receipt, from `readPacket`
(connection.go lines 493-496): `ct := tag[4]`;
`_, valid := channeldpb.CompressionType_name[int32(ct)]`;
`if valid && ct != 0 then c.compressionType = channeldpb.CompressionType(ct)`.
An unrecognized or zero value leaves the sticky type unchanged. -/
def updateCompressionType (current ct : Nat) : Nat :=
  if isKnownCompression ct ∧ ct ≠ 0 then ct else current

/-- The outbound tail of `flush` (connection.go lines 656-677): serialize
the packet, snappy-compress when the sticky type is SNAPPY (= 1), then
prepend the 5-byte header whose byte 4 carries the sticky type.
`snappyEncode` abstracts the external snappy library; `serialized` is the
marshalled packet body. -/
def flushPacketBytes (snappyEncode : List Nat → List Nat)
    (compressionType : Nat) (serialized : List Nat) : List Nat :=
  let bytes :=
    if compressionType = 1 then snappyEncode serialized else serialized
  encodeHeader bytes.length compressionType ++ bytes

/-- Claim C7: whenever a received packet header carries a non-zero
compression value that is a recognized member of the CompressionType
enum, the connection's sticky compression type becomes that value, and a
subsequent flush compresses the outbound payload (every recognized
non-zero value is SNAPPY under the spec-modelled enum) and labels the
outbound header byte 4 with that same value; a non-zero value that is
not a recognized member leaves the sticky type unchanged.  The sticky
value persists across flushes because `flush` never writes it. -/
theorem stickyCompression (current ct : Nat) :
    (isKnownCompression ct = true → ct ≠ 0 →
      updateCompressionType current ct = ct ∧
      ∀ (snappyEncode : List Nat → List Nat) (serialized : List Nat),
        flushPacketBytes snappyEncode (updateCompressionType current ct)
            serialized =
          encodeHeader (snappyEncode serialized).length ct ++
            snappyEncode serialized) ∧
    (isKnownCompression ct = false →
      updateCompressionType current ct = current) := by
  constructor
  · intro hk hnz
    have hset : updateCompressionType current ct = ct := by
      simp [updateCompressionType, hk, hnz]
    have hone : ct = 1 := by
      have : ct = 0 ∨ ct = 1 := by
        simpa [isKnownCompression, decide_eq_true_eq] using hk
      omega
    refine ⟨hset, fun snappyEncode serialized => ?_⟩
    rw [hset, hone]
    simp [flushPacketBytes]
  · intro hk
    simp [updateCompressionType, hk]

/-- Witness for `stickyCompression` at `current = 0`, `ct = 1`: the sticky
type becomes SNAPPY and a flush of body [9, 9] under the doubling
compressor labels and compresses accordingly. -/
theorem stickyCompression_witness :
    updateCompressionType 0 1 = 1 ∧
    flushPacketBytes (fun l => l ++ l) (updateCompressionType 0 1) [9, 9] =
      encodeHeader ([9, 9] ++ [9, 9] : List Nat).length 1 ++
        ([9, 9] ++ [9, 9]) := by
  have h := (stickyCompression 0 1).1 (by decide) (by decide)
  exact ⟨h.1, h.2 (fun l => l ++ l) [9, 9]⟩

/-! ## Connection-id allocation (generateNextConnId lines 195-208,
AddConnection lines 224-236) -/

/-- `generateNextConnId` in development mode (connection.go lines
196-201): `atomic.AddUint32(&nextConnectionId, 1)` (uint32 wrap-around),
then panic — modelled as `none` — when the incremented value reaches
`maxConnId` (`if nextConnectionId >= maxConnId`). -/
def generateNextConnIdDev (next maxConnId : Nat) : Option Nat :=
  let next' := (next + 1) % 2 ^ 32
  if next' ≥ maxConnId then none else some next'

/-- `generateNextConnId` in production mode (lines 202-207):
`HashString(addr) ^ uint32(time.Now().UnixNano())` masked by `maxConnId`.
The hash and timestamp are environment inputs; `raw` is their already
xored 32-bit value. -/
def generateNextConnIdProd (raw maxConnId : Nat) : Nat :=
  (raw % 2 ^ 32) &&& maxConnId

/-- The id-allocation retry loop of `AddConnection` (lines 226-236) in
development mode: generate, break when the id is not registered, retry
otherwise; the `tries >= 100` panic and the in-generator panic are both
`none`.  `fuel` counts the remaining loop iterations (101 from the
tries limit). -/
def addConnDevLoop (registered : List Nat) (maxConnId : Nat) :
    Nat → Nat → Option Nat
  | 0, _ => none
  | fuel + 1, next =>
    match generateNextConnIdDev next maxConnId with
    | none => none
    | some next' =>
      if next' ∈ registered then addConnDevLoop registered maxConnId fuel next'
      else some next'

/-- `AddConnection`'s id allocation in development mode, starting from
the global counter value `next`. -/
def AddConnectionIdDev (registered : List Nat) (maxConnId next : Nat) :
    Option Nat :=
  addConnDevLoop registered maxConnId 101 next

/-- The id-allocation retry loop of `AddConnection` in production mode:
`raws` is the stream of successive `hash ^ timestamp` environment values
consumed on each call to `generateNextConnId`. -/
def addConnProdLoop (registered : List Nat) (maxConnId : Nat) :
    Nat → List Nat → Option Nat
  | _, [] => none
  | 0, _ => none
  | fuel + 1, raw :: raws =>
    let cand := generateNextConnIdProd raw maxConnId
    if cand ∈ registered then addConnProdLoop registered maxConnId fuel raws
    else some cand

/-- `AddConnection`'s id allocation in production mode. -/
def AddConnectionIdProd (registered : List Nat) (maxConnId : Nat)
    (raws : List Nat) : Option Nat :=
  addConnProdLoop registered maxConnId 101 raws

/-- Claim C8 counterexample: in production mode with an empty registry and
environment values hash = 5, timestamp = 5 (`5 ^^^ 5 = 0`), the masked
candidate is 0, no registered id collides, and `AddConnection` assigns
ConnectionId 0 — outside the claimed value space [1, 2^maxIdBits - 1]
(here maxIdBits = 4, maxConnId = 15). -/
theorem addConnectionId_cex :
    generateNextConnIdProd (5 ^^^ 5) 15 = 0 ∧
    AddConnectionIdProd [] 15 [5 ^^^ 5] = some 0 ∧
    ¬ 1 ≤ 0 := by decide

/-- Every allocated id in the dev loop is the counter successor chain:
generic invariant for the amended claim C8. -/
theorem addConnDevLoop_bounds (registered : List Nat) (maxConnId : Nat)
    (hmax : maxConnId < 2 ^ 32) :
    ∀ fuel next id, next < maxConnId →
      addConnDevLoop registered maxConnId fuel next = some id →
      1 ≤ id ∧ id < maxConnId ∧ id ∉ registered := by
  intro fuel
  induction fuel with
  | zero => intro next id _ h; simp [addConnDevLoop] at h
  | succ f ih =>
    intro next id hnext h
    have hwrap : (next + 1) % 2 ^ 32 = next + 1 :=
      Nat.mod_eq_of_lt (by omega)
    by_cases hge : next + 1 ≥ maxConnId
    · have hnone : generateNextConnIdDev next maxConnId = none := by
        simp only [generateNextConnIdDev]
        rw [hwrap, if_pos hge]
      simp [addConnDevLoop, hnone] at h
    · have hgen : generateNextConnIdDev next maxConnId = some (next + 1) := by
        simp only [generateNextConnIdDev]
        rw [hwrap, if_neg hge]
      by_cases hmem : next + 1 ∈ registered
      · have h' : addConnDevLoop registered maxConnId f (next + 1) = some id := by
          simpa [addConnDevLoop, hgen, hmem] using h
        exact ih (next + 1) id (by omega) h'
      · obtain rfl : next + 1 = id := by
          simpa [addConnDevLoop, hgen, hmem] using h
        exact ⟨by omega, by omega, hmem⟩

/-- The production loop only returns masked, non-colliding candidates:
generic invariant for the amended claim C8. -/
theorem addConnProdLoop_bounds (registered : List Nat) (maxConnId : Nat) :
    ∀ raws fuel id,
      addConnProdLoop registered maxConnId fuel raws = some id →
      id ≤ maxConnId ∧ id ∉ registered := by
  intro raws
  induction raws with
  | nil => intro fuel id h; cases fuel <;> simp [addConnProdLoop] at h
  | cons raw rest ih =>
    intro fuel id h
    cases fuel with
    | zero => simp [addConnProdLoop] at h
    | succ f =>
      rw [addConnProdLoop] at h
      by_cases hmem : generateNextConnIdProd raw maxConnId ∈ registered
      · rw [if_pos hmem] at h
        exact ih f id h
      · rw [if_neg hmem] at h
        obtain rfl : generateNextConnIdProd raw maxConnId = id := by
          simpa using h
        exact ⟨Nat.and_le_right, hmem⟩

/-- Claim C8 (amended): every ConnectionId assigned by AddConnection
differs from the id of every connection registered at the moment of
allocation, and lies in [1, 2^maxIdBits - 2] in development mode (the
counter panics at maxConnId = 2^maxIdBits - 1) but only in
[0, 2^maxIdBits - 1] in production mode: the masked hash can be 0, so
the claimed lower bound 1 does not hold there. -/
theorem addConnectionId_bounds (registered : List Nat) (maxConnId : Nat) :
    (∀ next id, maxConnId < 2 ^ 32 → next < maxConnId →
      AddConnectionIdDev registered maxConnId next = some id →
      1 ≤ id ∧ id < maxConnId ∧ id ∉ registered) ∧
    (∀ raws id,
      AddConnectionIdProd registered maxConnId raws = some id →
      id ≤ maxConnId ∧ id ∉ registered) := by
  constructor
  · intro next id hmax hnext h
    exact addConnDevLoop_bounds registered maxConnId hmax 101 next id hnext h
  · intro raws id h
    exact addConnProdLoop_bounds registered maxConnId raws 101 id h

/-- Witness for `addConnectionId_bounds`: dev mode from counter 0 with
registry containing id 1 allocates 2; prod mode with raw value 22 and
maxConnId 15 allocates 6. -/
theorem addConnectionId_bounds_witness :
    (1 ≤ 2 ∧ 2 < 15 ∧ (2 : Nat) ∉ [1]) ∧
    ((6 : Nat) ≤ 15 ∧ (6 : Nat) ∉ [1]) :=
  ⟨(addConnectionId_bounds [1] 15).1 0 2 (by decide) (by decide) (by decide),
   (addConnectionId_bounds [1] 15).2 [22] 6 (by decide)⟩

/-! ## Packet assembler (receive lines 331-447, readPacket lines 449-531) -/

/-- One `MessagePack` envelope, reduced to the fields the assembler
observes. -/
structure MsgPack where
  msgType : Nat
  msgBody : List Nat
deriving DecidableEq, Repr

/-- The `channeldpb.Packet` envelope: a list of MessagePacks. -/
structure Packet where
  messages : List MsgPack
deriving DecidableEq, Repr

/-- Overwrite `buf` at position `pos` with `data`, preserving the rest:
models a Go copy into `readBuffer[pos:]`. -/
def listWrite (buf : List Nat) (pos : Nat) (data : List Nat) : List Nat :=
  buf.take pos ++ data ++ buf.drop (pos + data.length)

/-- The outcome of one `readPacket` call (connection.go lines 449-531):
the decoded packet (`nil` on any drop/fragment/error path), the values of
`c.readPos` and `*bufPos` afterwards (`readPos` is reset to 0 on the
invalid-tag, oversize and buffer-overflow drops; `bufPos` advances only
on success), the sticky compression type afterwards, and the packets
dispatched during the call. -/
structure ReadPacketResult where
  packet : Option Packet
  readPos : Nat
  bufPos : Nat
  compressionType : Nat
  dispatched : List Packet
deriving DecidableEq, Repr

/-- `readPacket` (connection.go lines 449-531), faithful to the source:
 1. `tag := readBuffer[bufPos : bufPos+5]`; `tag[0] != 67` drops and
    resets `readPos`;
 2. the size is `decodeSize`; `packetSize > MaxPacketSize` drops and
    resets;
 3. `c.readPos < fullSize` (an absolute comparison, NOT relative to
    `bufPos`) is treated as an unfinished packet: return nil keeping
    `readPos`;
 4. `bufPos + fullSize >= len(readBuffer)` drops and resets;
 5. the payload slice is decompressed per a recognized non-zero header
    byte 4 (updating the sticky type first) and unmarshalled; errors
    return nil keeping `readPos`;
 6. on success each contained message is dispatched and `bufPos`
    advances by `fullSize`.
`unmarshal` abstracts `proto.Unmarshal` into a Packet; `snappyDecode`
abstracts the snappy decoder.  The `tag` slice reads whatever bytes sit
in the buffer, including stale bytes beyond `readPos`, exactly like the
Go slice expression. -/
def readPacket (unmarshal : List Nat → Option Packet)
    (snappyDecode : List Nat → Option (List Nat))
    (buf : List Nat) (readPos bufPos ct0 : Nat) : ReadPacketResult :=
  let tag := (buf.drop bufPos).take PacketHeaderSize
  if tag.getD 0 0 ≠ 67 then ⟨none, 0, bufPos, ct0, []⟩
  else
    let packetSize := decodeSize (tag.getD 1 0) (tag.getD 2 0) (tag.getD 3 0)
    if packetSize > MaxPacketSize then ⟨none, 0, bufPos, ct0, []⟩
    else
      let fullSize := PacketHeaderSize + packetSize
      if readPos < fullSize then ⟨none, readPos, bufPos, ct0, []⟩
      else if bufPos + fullSize ≥ buf.length then ⟨none, 0, bufPos, ct0, []⟩
      else
        let bytes := (buf.drop (bufPos + PacketHeaderSize)).take packetSize
        let ct := tag.getD 4 0
        let ct1 := updateCompressionType ct0 ct
        let bytesOpt :=
          if isKnownCompression ct ∧ ct ≠ 0 then
            (if ct = 1 then snappyDecode bytes else some bytes)
          else some bytes
        match bytesOpt with
        | none => ⟨none, readPos, bufPos, ct1, []⟩
        | some bs =>
          match unmarshal bs with
          | none => ⟨none, readPos, bufPos, ct1, []⟩
          | some p => ⟨some p, readPos, bufPos + fullSize, ct1, [p]⟩

/-- The scan loop of `receive` (connection.go lines 436-443): iterate
`bufPos` from 0 while `bufPos < readPos`, calling `readPacket`; a nil
result makes `receive` return at once (WITHOUT the final `readPos = 0`
reset), a non-nil result continues the scan.  Returns whether the loop
ran to completion, the final `readPos`, the sticky compression type, and
the packets dispatched.  `fuel` bounds the iterations; any fuel above
`readPos` is exact because each successful call advances `bufPos` by at
least 5. -/
def scanLoop (unmarshal : List Nat → Option Packet)
    (snappyDecode : List Nat → Option (List Nat)) (buf : List Nat) :
    Nat → Nat → Nat → Nat → List Packet → Bool × Nat × Nat × List Packet
  | 0, readPos, _, ct, acc => (true, readPos, ct, acc)
  | fuel + 1, readPos, bufPos, ct, acc =>
    if bufPos < readPos then
      let r := readPacket unmarshal snappyDecode buf readPos bufPos ct
      match r.packet with
      | none => (false, r.readPos, r.compressionType, acc)
      | some _ =>
        scanLoop unmarshal snappyDecode buf fuel r.readPos r.bufPos
          r.compressionType (acc ++ r.dispatched)
    else (true, readPos, ct, acc)

/-- The per-connection state the assembler touches. -/
structure RecvState where
  readBuffer : List Nat
  readPos : Nat
  compressionType : Nat
  dispatched : List Packet
deriving DecidableEq, Repr

/-- `receive` (connection.go lines 331-447) processing the bytes one
successful `conn.Read` returned: copy the chunk into
`readBuffer[readPos:]` (a Read never returns more than the remaining
buffer space), return early on an incomplete header (`readPos < 5`),
otherwise run the scan loop; only a completed scan performs the final
`c.readPos = 0` reset (line 446) — an early return keeps whatever
`readPacket` left in `readPos`. -/
def receive (unmarshal : List Nat → Option Packet)
    (snappyDecode : List Nat → Option (List Nat))
    (st : RecvState) (chunk : List Nat) : RecvState :=
  let n := min chunk.length (st.readBuffer.length - st.readPos)
  let buf := listWrite st.readBuffer st.readPos (chunk.take n)
  let readPos := st.readPos + n
  if readPos < PacketHeaderSize then
    { st with readBuffer := buf, readPos := readPos }
  else
    match scanLoop unmarshal snappyDecode buf (readPos + 1) readPos 0
        st.compressionType [] with
    | (completed, readPos', ct', acc) =>
      { readBuffer := buf
        readPos := if completed then 0 else readPos'
        compressionType := ct'
        dispatched := st.dispatched ++ acc }

/-- Delivering a byte stream to the assembler as successive socket
reads. -/
def receiveAll (unmarshal : List Nat → Option Packet)
    (snappyDecode : List Nat → Option (List Nat))
    (st : RecvState) (chunks : List (List Nat)) : RecvState :=
  chunks.foldl (receive unmarshal snappyDecode) st

/-- A fresh connection's receive state: `make([]byte, cap)` zeroes the
buffer (connection.go line 243), `readPos = 0`, no compression. -/
def initialRecvState (cap : Nat) : RecvState :=
  { readBuffer := List.replicate cap 0
    readPos := 0
    compressionType := 0
    dispatched := [] }

/-- Models `proto.Unmarshal` into `channeldpb.Packet` (external protobuf
library) on the byte strings arising in the C1 scenario, per the protobuf
wire format: the empty string decodes to the empty Packet (protobuf
always decodes an empty buffer to the default message), and
`0x0A 0x00` is field 1 (`messages`), length 0 — a Packet holding one
default MessagePack.  Other inputs are left undecodable. -/
def unmarshalC1 : List Nat → Option Packet
  | [] => some ⟨[]⟩
  | [10, 0] => some ⟨[⟨0, []⟩]⟩
  | _ => none

/-- Snappy decoder stub for the C1 scenario: never consulted because every
header carries compression type 0. -/
def snappyDecodeC1 : List Nat → Option (List Nat) :=
  fun _ => none

/-- A well-formed 7-byte framed packet: header 67 72 78 2 0 (payload
length 2, no compression) and payload `0x0A 0x00`, which unmarshals to a
Packet with one default MessagePack. -/
def packetA : List Nat := [67, 72, 78, 2, 0, 10, 0]

/-- Claim C1, evaluated at the failing input: the byte stream
`packetA ++ packetA` delivered in a single read dispatches both packets;
the same stream split as a 10-byte read (all of the first packet plus
the first 3 header bytes of the second) followed by a 4-byte read
dispatches the first packet and then a phantom empty packet: scanning
at `bufPos = 7` reads the tag from stale zeroed buffer bytes beyond
`readPos`, fabricates a zero-length frame, and the completed scan then
resets `readPos = 0`, discarding the second packet's buffered header
bytes; its remaining 4 bytes arrive below the 5-byte header minimum and
are never dispatched.  The two deliveries of the same stream dispatch
different packet sequences, so the second packet is silently lost. -/
theorem receiveSplit_divergence :
    (receiveAll unmarshalC1 snappyDecodeC1 (initialRecvState 64)
        [packetA ++ packetA]).dispatched =
      [⟨[⟨0, []⟩]⟩, ⟨[⟨0, []⟩]⟩] ∧
    (receiveAll unmarshalC1 snappyDecodeC1 (initialRecvState 64)
        [packetA ++ [67, 72, 78], [2, 0, 10, 0]]).dispatched =
      [⟨[⟨0, []⟩]⟩, ⟨[]⟩] ∧
    (receiveAll unmarshalC1 snappyDecodeC1 (initialRecvState 64)
        [packetA ++ [67, 72, 78], [2, 0, 10, 0]]).dispatched ≠
      (receiveAll unmarshalC1 snappyDecodeC1 (initialRecvState 64)
        [packetA ++ packetA]).dispatched := by decide
